import Mathlib

/-!
Shallow embedding of the core of `mock-trade-algorithm` (Go).

The Go code computes with `shopspring/decimal`, an exact decimal type; we
model its values as `ℚ` with exact field operations.  `Decimal.Truncate(0)`
is modelled by truncation toward zero (`truncD`), `Decimal.Sign` by `signD`.
Wall-clock fields (`CreatedAt`, `UpdatedAt`, ...) are omitted: no claim
mentions them and they are set from the ambient clock, not computed.
-/

namespace MockTrade

/-- Truncation toward zero, the meaning of `decimal.Truncate(0)`. -/
def truncD (x : ℚ) : ℚ := if 0 ≤ x then (⌊x⌋ : ℚ) else (⌈x⌉ : ℚ)

/-- `decimal.Sign`: -1, 0 or 1. -/
def signD (x : ℚ) : ℤ := if 0 < x then 1 else if x < 0 then -1 else 0

/-- `models.OrderSide` (Go constants `OrderSideBuy`, `OrderSideSell`). -/
inductive OrderSide where
  | buy
  | sell
deriving DecidableEq, Repr

/-- `models.TradeType`. -/
inductive TradeType where
  | market
  | limit
  | stop
deriving DecidableEq, Repr

/-- `models.TradeStatus`. -/
inductive TradeStatus where
  | pending
  | filled
  | cancelled
  | rejected
  | expired
deriving DecidableEq, Repr

/-- `models.User` (balance-relevant fields). -/
structure User where
  ID : Int
  Balance : ℚ
deriving DecidableEq, Repr

/-- `models.Portfolio` (decimal fields; times omitted). -/
structure Portfolio where
  UserID : Int
  Symbol : String
  Quantity : ℚ
  AveragePrice : ℚ
  CurrentValue : ℚ
  UnrealizedPL : ℚ
deriving DecidableEq, Repr

/-- `models.Trade` (fields used by the engine and the ledger). -/
structure Trade where
  UserID : Int
  Symbol : String
  Side : OrderSide
  Type' : TradeType
  Quantity : ℚ
  Price : ℚ
  FillPrice : ℚ
  Status : TradeStatus
  Commission : ℚ
  Strategy : String
deriving DecidableEq, Repr

/-- `models.TradingSignal` (Signal is the Go string "BUY"/"SELL"/...). -/
structure TradingSignal where
  Symbol : String
  Signal : String
  Strength : ℚ
  Price : ℚ
  Strategy : String
deriving DecidableEq, Repr

/-- `models.NewTrade`: fresh trade, status PENDING, zero fill price and
commission (Go zero values). -/
def NewTrade (userID : Int) (symbol : String) (side : OrderSide)
    (tradeType : TradeType) (quantity price : ℚ) (strategy : String) : Trade :=
  { UserID := userID
    Symbol := symbol
    Side := side
    Type' := tradeType
    Quantity := quantity
    Price := price
    FillPrice := 0
    Status := TradeStatus.pending
    Commission := 0
    Strategy := strategy }

/-- `User.UpdateBalance`. -/
def User.UpdateBalance (u : User) (amount : ℚ) : User :=
  { u with Balance := u.Balance + amount }

/-- `User.CanAfford`. -/
def User.CanAfford (u : User) (amount : ℚ) : Prop :=
  amount ≤ u.Balance

instance (u : User) (amount : ℚ) : Decidable (u.CanAfford amount) := by
  unfold User.CanAfford; infer_instance

/-- `Portfolio.UpdatePosition` (models/user.go): new position when empty,
volume-weighted average when the fill has the same sign, plain signed
addition otherwise, resetting the average price when the result is zero. -/
def Portfolio.UpdatePosition (p : Portfolio) (quantity price : ℚ) : Portfolio :=
  if p.Quantity = 0 then
    { p with Quantity := quantity, AveragePrice := price }
  else if signD quantity = signD p.Quantity then
    let totalCost := p.Quantity * p.AveragePrice + quantity * price
    let newQuantity := p.Quantity + quantity
    if newQuantity = 0 then
      { p with Quantity := newQuantity }
    else
      { p with Quantity := newQuantity, AveragePrice := totalCost / newQuantity }
  else
    let newQuantity := p.Quantity + quantity
    if newQuantity = 0 then
      { p with Quantity := newQuantity, AveragePrice := 0 }
    else
      { p with Quantity := newQuantity }

/-- `Portfolio.CalculateUnrealizedPL`. -/
def Portfolio.CalculateUnrealizedPL (p : Portfolio) (currentPrice : ℚ) : Portfolio :=
  if p.Quantity = 0 then
    { p with UnrealizedPL := 0 }
  else
    let currentValue := p.Quantity * currentPrice
    let costBasis := p.Quantity * p.AveragePrice
    { p with UnrealizedPL := currentValue - costBasis, CurrentValue := currentValue }

/-- `Trade.GetTotalCost`: zero unless FILLED; quantity·fillPrice plus the
commission for a buy, minus it for a sell. -/
def Trade.GetTotalCost (t : Trade) : ℚ :=
  if t.Status ≠ TradeStatus.filled then 0
  else if t.Side = OrderSide.buy then t.Quantity * t.FillPrice + t.Commission
  else t.Quantity * t.FillPrice - t.Commission

/-- `database.UpsertPortfolio` (`INSERT OR REPLACE` keyed by user and
symbol): replace the existing row, else append. -/
def upsertPortfolio (portfolio : List Portfolio) (pos : Portfolio) : List Portfolio :=
  if portfolio.any (fun p => p.UserID = pos.UserID ∧ p.Symbol = pos.Symbol) then
    portfolio.map (fun p =>
      if p.UserID = pos.UserID ∧ p.Symbol = pos.Symbol then pos else p)
  else portfolio ++ [pos]

/-- `main.updateUserBalanceAndPortfolio`: no effect unless the trade is
FILLED; otherwise the cash balance moves by ±GetTotalCost and the position
for the trade's symbol absorbs the (sell-negated) fill quantity at the fill
price.  The portfolio list stands for the rows read from / written to the
database. -/
def updateUserBalanceAndPortfolio (trade : Trade) (user : User)
    (portfolio : List Portfolio) : User × List Portfolio :=
  if trade.Status ≠ TradeStatus.filled then (user, portfolio)
  else
    let totalCost := trade.GetTotalCost
    let user' :=
      if trade.Side = OrderSide.buy then user.UpdateBalance (-totalCost)
      else user.UpdateBalance totalCost
    let base : Portfolio :=
      { UserID := user.ID, Symbol := trade.Symbol
        Quantity := 0, AveragePrice := 0, CurrentValue := 0, UnrealizedPL := 0 }
    let pos := (portfolio.find? (fun p => p.Symbol = trade.Symbol)).getD base
    let quantity :=
      if trade.Side = OrderSide.sell then -trade.Quantity else trade.Quantity
    let pos' := pos.UpdatePosition quantity trade.FillPrice
    (user', upsertPortfolio portfolio pos')

/-- The BUY sizing-and-affordability step of `main.makeTradeDecision`
(taken when the position for the symbol is absent or zero). -/
def buyPath (symbol : String) (currentPrice : ℚ) (user : User)
    (maxPositionValue riskAmount totalStrength : ℚ) : Option Trade :=
  let positionValue := min maxPositionValue (riskAmount * totalStrength)
  let quantity := truncD (positionValue / currentPrice)
  if 0 < quantity ∧ user.CanAfford (quantity * currentPrice) then
    some (NewTrade user.ID symbol OrderSide.buy TradeType.market
      quantity currentPrice "multi_strategy")
  else none

/-- `main.makeTradeDecision`: tally BUY/SELL signals and the total strength,
look up the symbol's position, and apply the quorum + sizing rules.
`maxPositionSize` and `riskPercentage` are the engine's configuration. -/
def makeTradeDecision (signals : List TradingSignal) (symbol : String)
    (currentPrice : ℚ) (user : User) (portfolio : List Portfolio)
    (maxPositionSize riskPercentage : ℚ) : Option Trade :=
  let buySignals := (signals.filter (fun s => s.Signal = "BUY")).length
  let sellSignals := (signals.filter (fun s => s.Signal = "SELL")).length
  let totalStrength := (signals.map (fun s => s.Strength)).sum
  let currentPosition := portfolio.find? (fun p => p.Symbol = symbol)
  let maxPositionValue := maxPositionSize
  let riskAmount := user.Balance * riskPercentage
  if sellSignals < buySignals ∧ 2 ≤ buySignals then
    match currentPosition with
    | none => buyPath symbol currentPrice user maxPositionValue riskAmount totalStrength
    | some p =>
      if p.Quantity = 0 then
        buyPath symbol currentPrice user maxPositionValue riskAmount totalStrength
      else none
  else if buySignals < sellSignals ∧ 2 ≤ sellSignals then
    match currentPosition with
    | none => none
    | some p =>
      if 0 < p.Quantity then
        some (NewTrade user.ID symbol OrderSide.sell TradeType.market
          p.Quantity currentPrice "multi_strategy")
      else none
  else none

/-!  Indicator library (strategies/strategy.go).  -/

/-- Sum of the window `values[i .. i+period-1]`. -/
def windowSum (values : List ℚ) (i period : ℕ) : ℚ :=
  ((values.drop i).take period).sum

/-- `strategies.CalculateSMA`: windowed arithmetic mean; `nil` (here `[]`)
when the series is shorter than the period. -/
def CalculateSMA (values : List ℚ) (period : ℕ) : List ℚ :=
  if values.length < period then []
  else (List.range (values.length - period + 1)).map
    (fun i => windowSum values i period / (period : ℚ))

/-- One Wilder smoothing step: `avg' = (avg·(period-1) + x)/period`. -/
def wilderStep (period : ℕ) (avg x : ℚ) : ℚ :=
  (avg * ((period : ℚ) - 1) + x) / (period : ℚ)

/-- The RSI value from the running averages: 100 when the average loss is
zero, else `100 - 100/(1 + avgGain/avgLoss)`. -/
def rsiValue (avgGain avgLoss : ℚ) : ℚ :=
  if avgLoss = 0 then 100
  else 100 - 100 / (1 + avgGain / avgLoss)

/-- The per-step (gain, loss) pairs of consecutive price changes:
a positive change is a gain, otherwise its absolute value is a loss. -/
def gainsLosses : List ℚ → List (ℚ × ℚ)
  | [] => []
  | [_] => []
  | a :: b :: rest =>
    (if a < b then (b - a, 0) else (0, a - b)) :: gainsLosses (b :: rest)

/-- The RSI loop body for indices past the first: smooth both averages with
`wilderStep`, emit `rsiValue` of the new averages, continue. -/
def rsiAux (period : ℕ) (avgGain avgLoss : ℚ) : List (ℚ × ℚ) → List ℚ
  | [] => []
  | gl :: rest =>
    let ag := wilderStep period avgGain gl.1
    let al := wilderStep period avgLoss gl.2
    rsiValue ag al :: rsiAux period ag al rest

/-- The running smoothed average-loss values paired with `rsiAux`'s
outputs (the average loss does not depend on the gains). -/
def rsiLossAux (period : ℕ) (avgLoss : ℚ) : List (ℚ × ℚ) → List ℚ
  | [] => []
  | gl :: rest =>
    let al := wilderStep period avgLoss gl.2
    al :: rsiLossAux period al rest

/-- `strategies.CalculateRSI`: `[]` below `period+1` prices; otherwise the
first value uses the simple means of the first `period` gains/losses and
the rest use Wilder smoothing. -/
def CalculateRSI (prices : List ℚ) (period : ℕ) : List ℚ :=
  if prices.length < period + 1 then []
  else
    let gl := gainsLosses prices
    let avgGain := ((gl.take period).map Prod.fst).sum / (period : ℚ)
    let avgLoss := ((gl.take period).map Prod.snd).sum / (period : ℚ)
    rsiValue avgGain avgLoss :: rsiAux period avgGain avgLoss (gl.drop period)

/-- The computed average loss at each RSI output index (index 0 is the
initial simple mean, later indices are Wilder-smoothed). -/
def rsiAvgLosses (prices : List ℚ) (period : ℕ) : List ℚ :=
  if prices.length < period + 1 then []
  else
    let gl := gainsLosses prices
    let avgLoss := ((gl.take period).map Prod.snd).sum / (period : ℚ)
    avgLoss :: rsiLossAux period avgLoss (gl.drop period)

/-- Population variance of the window `prices[i .. i+period-1]` against the
mean `m` (the Go loop sums squared deviations from `sma[i]`). -/
def windowVariance (prices : List ℚ) (period i : ℕ) (m : ℚ) : ℚ :=
  (((prices.drop i).take period).map (fun x => (x - m) * (x - m))).sum / (period : ℚ)

/-- `strategies.CalculateBollingerBands`, parametrised by `sqrtD`, the
decimal square-root routine the Go code reaches through
`variance.Pow(0.5)`; everything else is computed exactly as in the source.
Returns (upper, middle, lower). -/
def CalculateBollingerBands (sqrtD : ℚ → ℚ) (prices : List ℚ) (period : ℕ)
    (stdDev : ℚ) : List ℚ × List ℚ × List ℚ :=
  if prices.length < period then ([], [], [])
  else
    let sma := CalculateSMA prices period
    let upper := (List.range sma.length).map (fun i =>
      sma.getD i 0 + stdDev * sqrtD (windowVariance prices period i (sma.getD i 0)))
    let lower := (List.range sma.length).map (fun i =>
      sma.getD i 0 - stdDev * sqrtD (windowVariance prices period i (sma.getD i 0)))
    (upper, sma, lower)

/-!  SMA crossover strategy (strategies/sma_strategy.go).  -/

/-- `strategies.SMAStrategy` parameters. -/
structure SMAStrategy where
  shortPeriod : ℕ
  longPeriod : ℕ
deriving DecidableEq, Repr

/-- Bar data used by the strategies (`alpaca.MockBar`); only `Close` is read
by the SMA strategy. -/
structure MockBar where
  Open' : ℚ
  High : ℚ
  Low : ℚ
  Close : ℚ
  Volume : ℤ
deriving DecidableEq, Repr

/-- `strategies.ExtractPrices`: the closing prices of the bars. -/
def ExtractPrices (bars : List MockBar) : List ℚ :=
  bars.map (fun b => b.Close)

/-- The strategy's short SMA series (`shortSMA` in Analyze). -/
def shortSMA (s : SMAStrategy) (bars : List MockBar) : List ℚ :=
  CalculateSMA (ExtractPrices bars) s.shortPeriod

/-- The strategy's long SMA series (`longSMA` in Analyze). -/
def longSMA (s : SMAStrategy) (bars : List MockBar) : List ℚ :=
  CalculateSMA (ExtractPrices bars) s.longPeriod

/-- `currentShortSMA`: last point of the short SMA. -/
def currentShortSMA (s : SMAStrategy) (bars : List MockBar) : ℚ :=
  (shortSMA s bars).getD ((shortSMA s bars).length - 1) 0

/-- `currentLongSMA`: last point of the long SMA. -/
def currentLongSMA (s : SMAStrategy) (bars : List MockBar) : ℚ :=
  (longSMA s bars).getD ((longSMA s bars).length - 1) 0

/-- `prevShortSMA`: second-to-last point of the short SMA. -/
def prevShortSMA (s : SMAStrategy) (bars : List MockBar) : ℚ :=
  (shortSMA s bars).getD ((shortSMA s bars).length - 2) 0

/-- `prevLongSMA`: second-to-last point of the long SMA. -/
def prevLongSMA (s : SMAStrategy) (bars : List MockBar) : ℚ :=
  (longSMA s bars).getD ((longSMA s bars).length - 2) 0

/-- The bullish-crossover condition of `SMAStrategy.Analyze`, including its
data-sufficiency guards. -/
def bullishCross (s : SMAStrategy) (bars : List MockBar) : Prop :=
  s.longPeriod ≤ bars.length ∧
  2 ≤ (shortSMA s bars).length ∧ 2 ≤ (longSMA s bars).length ∧
  prevShortSMA s bars ≤ prevLongSMA s bars ∧
  currentLongSMA s bars < currentShortSMA s bars

/-- The bearish-crossover condition of `SMAStrategy.Analyze`. -/
def bearishCross (s : SMAStrategy) (bars : List MockBar) : Prop :=
  s.longPeriod ≤ bars.length ∧
  2 ≤ (shortSMA s bars).length ∧ 2 ≤ (longSMA s bars).length ∧
  prevLongSMA s bars ≤ prevShortSMA s bars ∧
  currentShortSMA s bars < currentLongSMA s bars

/-- `SMAStrategy.Analyze`: crossover detection on the last two points of the
short and long SMAs, with strength `0.7 + |relative gap|·100·3` clamped at
1.0 (the Go clamp `if strength > 1.0 { strength = 1.0 }`). -/
def SMAStrategy.Analyze (s : SMAStrategy) (symbol : String) (bars : List MockBar)
    (currentPrice : ℚ) : Option TradingSignal :=
  if bars.length < s.longPeriod then none
  else if (shortSMA s bars).length < 2 ∨ (longSMA s bars).length < 2 then none
  else if prevShortSMA s bars ≤ prevLongSMA s bars ∧
      currentLongSMA s bars < currentShortSMA s bars then
    let diff := |(currentShortSMA s bars - currentLongSMA s bars) / currentLongSMA s bars|
    let strength := min (7/10 + diff * 100 * 3) 1
    some { Symbol := symbol, Signal := "BUY", Strength := strength
           Price := currentPrice, Strategy := "SMA Crossover" }
  else if prevLongSMA s bars ≤ prevShortSMA s bars ∧
      currentShortSMA s bars < currentLongSMA s bars then
    let diff := |(currentLongSMA s bars - currentShortSMA s bars) / currentLongSMA s bars|
    let strength := min (7/10 + diff * 100 * 3) 1
    some { Symbol := symbol, Signal := "SELL", Strength := strength
           Price := currentPrice, Strategy := "SMA Crossover" }
  else none

/-!  ## Theorems  -/

/-- Same strict `signD` as a nonzero value forces the sum away from zero. -/
theorem add_ne_zero_of_signD_eq {p q : ℚ} (hp : p ≠ 0) (h : signD q = signD p) :
    p + q ≠ 0 := by
  intro hc
  unfold signD at h
  split_ifs at h <;> try norm_num at h
  · linarith
  · linarith
  · exact hp (le_antisymm (by linarith) (by linarith))

/-- C1: a trade is produced only when one side strictly outnumbers the other
with at least two concurring signals; in particular one BUY plus one SELL
signal yields no trade. -/
theorem trade_requires_quorum (signals : List TradingSignal) (symbol : String)
    (currentPrice : ℚ) (user : User) (portfolio : List Portfolio)
    (maxPositionSize riskPercentage : ℚ) :
    (∀ t : Trade,
      makeTradeDecision signals symbol currentPrice user portfolio
          maxPositionSize riskPercentage = some t →
        ((signals.filter (fun s => s.Signal = "SELL")).length
            < (signals.filter (fun s => s.Signal = "BUY")).length ∧
          2 ≤ (signals.filter (fun s => s.Signal = "BUY")).length) ∨
        ((signals.filter (fun s => s.Signal = "BUY")).length
            < (signals.filter (fun s => s.Signal = "SELL")).length ∧
          2 ≤ (signals.filter (fun s => s.Signal = "SELL")).length)) ∧
    (∀ s₁ s₂ : TradingSignal, s₁.Signal = "BUY" → s₂.Signal = "SELL" →
      makeTradeDecision [s₁, s₂] symbol currentPrice user portfolio
        maxPositionSize riskPercentage = none) := by
  constructor
  · intro t h
    unfold makeTradeDecision at h
    by_cases h₁ : (signals.filter (fun s => s.Signal = "SELL")).length
        < (signals.filter (fun s => s.Signal = "BUY")).length ∧
        2 ≤ (signals.filter (fun s => s.Signal = "BUY")).length
    · exact Or.inl h₁
    by_cases h₂ : (signals.filter (fun s => s.Signal = "BUY")).length
        < (signals.filter (fun s => s.Signal = "SELL")).length ∧
        2 ≤ (signals.filter (fun s => s.Signal = "SELL")).length
    · exact Or.inr h₂
    rw [if_neg h₁, if_neg h₂] at h
    exact absurd h (by simp)
  · intro s₁ s₂ h₁ h₂
    unfold makeTradeDecision
    simp [List.filter_cons, h₁, h₂]

/-- Witness for C1 at a concrete one-BUY-one-SELL input. -/
theorem trade_requires_quorum_witness :
    makeTradeDecision [⟨"AAPL", "BUY", 8/10, 150, "a"⟩, ⟨"AAPL", "SELL", 9/10, 150, "b"⟩]
      "AAPL" 150 ⟨1, 10000⟩ [] 1000 (2/100) = none :=
  (trade_requires_quorum
      [⟨"AAPL", "BUY", 8/10, 150, "a"⟩, ⟨"AAPL", "SELL", 9/10, 150, "b"⟩]
      "AAPL" 150 ⟨1, 10000⟩ [] 1000 (2/100)).2
    ⟨"AAPL", "BUY", 8/10, 150, "a"⟩ ⟨"AAPL", "SELL", 9/10, 150, "b"⟩ rfl rfl

/-- Truncation toward zero agrees with the floor on nonnegative inputs. -/
theorem truncD_eq_floor {x : ℚ} (h : 0 ≤ x) : truncD x = (⌊x⌋ : ℚ) := by
  unfold truncD
  rw [if_pos h]

/-- C2: on the BUY path (position absent or zero) the engine sizes the
position as `min maxPositionValue (cash·riskFraction·ΣStrength)`, takes the
floor of its price quotient as the quantity, and emits a BUY trade exactly
when that quantity is positive and affordable; with a nonzero position the
BUY branch emits nothing. -/
theorem buy_path_sizing (signals : List TradingSignal) (symbol : String)
    (currentPrice : ℚ) (user : User) (portfolio : List Portfolio)
    (maxPositionSize riskPercentage : ℚ)
    (hbuy : (signals.filter (fun s => s.Signal = "SELL")).length
      < (signals.filter (fun s => s.Signal = "BUY")).length)
    (hquorum : 2 ≤ (signals.filter (fun s => s.Signal = "BUY")).length)
    (hprice : 0 < currentPrice)
    (hpv : 0 ≤ min maxPositionSize
      (user.Balance * riskPercentage * (signals.map (fun s => s.Strength)).sum)) :
    ((portfolio.find? (fun p => p.Symbol = symbol) = none ∨
        ∃ p, portfolio.find? (fun p => p.Symbol = symbol) = some p ∧ p.Quantity = 0) →
      makeTradeDecision signals symbol currentPrice user portfolio
          maxPositionSize riskPercentage =
        (if 0 < ((⌊min maxPositionSize
              (user.Balance * riskPercentage * (signals.map (fun s => s.Strength)).sum)
                / currentPrice⌋ : ℤ) : ℚ) ∧
            ((⌊min maxPositionSize
              (user.Balance * riskPercentage * (signals.map (fun s => s.Strength)).sum)
                / currentPrice⌋ : ℤ) : ℚ) * currentPrice ≤ user.Balance then
          some (NewTrade user.ID symbol OrderSide.buy TradeType.market
            ((⌊min maxPositionSize
              (user.Balance * riskPercentage * (signals.map (fun s => s.Strength)).sum)
                / currentPrice⌋ : ℤ) : ℚ) currentPrice "multi_strategy")
        else none)) ∧
    (∀ p, portfolio.find? (fun p => p.Symbol = symbol) = some p → p.Quantity ≠ 0 →
      makeTradeDecision signals symbol currentPrice user portfolio
        maxPositionSize riskPercentage = none) := by
  have hqf : truncD (min maxPositionSize
      (user.Balance * riskPercentage * (signals.map (fun s => s.Strength)).sum)
        / currentPrice) =
      ((⌊min maxPositionSize
        (user.Balance * riskPercentage * (signals.map (fun s => s.Strength)).sum)
          / currentPrice⌋ : ℤ) : ℚ) :=
    truncD_eq_floor (div_nonneg hpv (le_of_lt hprice))
  constructor
  · intro hpos
    unfold makeTradeDecision
    rw [if_pos ⟨hbuy, hquorum⟩]
    rcases hpos with hnone | ⟨p, hfind, hzero⟩
    · rw [hnone]
      simp only [buyPath, User.CanAfford, hqf]
    · rw [hfind]
      simp only [hzero, if_pos, buyPath, User.CanAfford, hqf]
  · intro p hfind hnz
    unfold makeTradeDecision
    rw [if_pos ⟨hbuy, hquorum⟩, hfind]
    simp [hnz]

/-- Witness for C2: two concurring BUY signals on an empty portfolio emit an
affordable BUY trade of the floored quantity. -/
theorem buy_path_sizing_witness :
    makeTradeDecision
      [⟨"AAPL", "BUY", 8/10, 10, "a"⟩, ⟨"AAPL", "BUY", 8/10, 10, "b"⟩]
      "AAPL" 10 ⟨1, 10000⟩ [] 1000 (2/100) =
      some (NewTrade 1 "AAPL" OrderSide.buy TradeType.market 32 10 "multi_strategy") := by
  have h := (buy_path_sizing
      [⟨"AAPL", "BUY", 8/10, 10, "a"⟩, ⟨"AAPL", "BUY", 8/10, 10, "b"⟩]
      "AAPL" 10 ⟨1, 10000⟩ [] 1000 (2/100)
      (by simp [List.filter_cons]) (by simp [List.filter_cons])
      (by norm_num) (by norm_num)).1 (Or.inl rfl)
  rw [h]
  simp only [List.map_cons, List.map_nil, List.sum_cons, List.sum_nil]
  norm_num

/-- C3: a same-direction fill on an open position adds quantities and makes
the average price the volume-weighted mean; the concrete FILLED
buy-10@100 / buy-10@110 / sell-20@120 round trip produces quantities
10, 20, 0, average prices 100, 105, 0, and the sell raises cash by
`20·120 − commission`. -/
theorem ledger_round_trip (u : User) (c : ℚ) :
    (∀ (p : Portfolio) (q pr : ℚ), p.Quantity ≠ 0 → signD q = signD p.Quantity →
      (p.UpdatePosition q pr).Quantity = p.Quantity + q ∧
      (p.UpdatePosition q pr).AveragePrice
        = (p.Quantity * p.AveragePrice + q * pr) / (p.Quantity + q)) ∧
    (let t₁ : Trade := ⟨u.ID, "AAPL", OrderSide.buy, TradeType.market, 10, 100, 100,
        TradeStatus.filled, 0, "multi_strategy"⟩
     let t₂ : Trade := ⟨u.ID, "AAPL", OrderSide.buy, TradeType.market, 10, 110, 110,
        TradeStatus.filled, 0, "multi_strategy"⟩
     let t₃ : Trade := ⟨u.ID, "AAPL", OrderSide.sell, TradeType.market, 20, 120, 120,
        TradeStatus.filled, c, "multi_strategy"⟩
     let s₁ := updateUserBalanceAndPortfolio t₁ u []
     let s₂ := updateUserBalanceAndPortfolio t₂ s₁.1 s₁.2
     let s₃ := updateUserBalanceAndPortfolio t₃ s₂.1 s₂.2
     s₁.2 = [⟨u.ID, "AAPL", 10, 100, 0, 0⟩] ∧
     s₂.2 = [⟨u.ID, "AAPL", 20, 105, 0, 0⟩] ∧
     s₃.2 = [⟨u.ID, "AAPL", 0, 0, 0, 0⟩] ∧
     s₃.1.Balance = s₂.1.Balance + (20 * 120 - c)) := by
  constructor
  · intro p q pr hq hs
    have hsum : p.Quantity + q ≠ 0 := add_ne_zero_of_signD_eq hq hs
    unfold Portfolio.UpdatePosition
    rw [if_neg hq, if_pos hs, if_neg hsum]
    exact ⟨rfl, rfl⟩
  · refine ⟨?_, ?_, ?_, ?_⟩ <;>
      simp [updateUserBalanceAndPortfolio, Trade.GetTotalCost, User.UpdateBalance,
        upsertPortfolio, Portfolio.UpdatePosition, signD, List.find?] <;>
      try norm_num

/-- Witness for C3's general volume-weighted part at a concrete position. -/
theorem ledger_round_trip_witness :
    ((⟨1, "AAPL", 10, 100, 0, 0⟩ : Portfolio).UpdatePosition 10 110).Quantity = 10 + 10 ∧
    ((⟨1, "AAPL", 10, 100, 0, 0⟩ : Portfolio).UpdatePosition 10 110).AveragePrice
      = (10 * 100 + 10 * 110) / (10 + 10) :=
  (ledger_round_trip ⟨1, 10000⟩ 0).1 ⟨1, "AAPL", 10, 100, 0, 0⟩ 10 110
    (by norm_num) (by norm_num [signD])

/-- C4: a trade whose status is PENDING, CANCELLED or REJECTED leaves the
user and every portfolio position untouched; a FILLED BUY debits
`quantity·fillPrice + commission` and a FILLED SELL credits
`quantity·fillPrice − commission`. -/
theorem nonfilled_trade_no_effect (trade : Trade) (user : User)
    (portfolio : List Portfolio) :
    (trade.Status = TradeStatus.pending ∨ trade.Status = TradeStatus.cancelled ∨
        trade.Status = TradeStatus.rejected →
      updateUserBalanceAndPortfolio trade user portfolio = (user, portfolio)) ∧
    (trade.Status = TradeStatus.filled → trade.Side = OrderSide.buy →
      (updateUserBalanceAndPortfolio trade user portfolio).1.Balance
        = user.Balance - (trade.Quantity * trade.FillPrice + trade.Commission)) ∧
    (trade.Status = TradeStatus.filled → trade.Side = OrderSide.sell →
      (updateUserBalanceAndPortfolio trade user portfolio).1.Balance
        = user.Balance + (trade.Quantity * trade.FillPrice - trade.Commission)) := by
  refine ⟨?_, ?_, ?_⟩
  · intro h
    unfold updateUserBalanceAndPortfolio
    have : trade.Status ≠ TradeStatus.filled := by
      rcases h with h | h | h <;> simp [h]
    rw [if_pos this]
  · intro hf hs
    simp [updateUserBalanceAndPortfolio, Trade.GetTotalCost, User.UpdateBalance, hf, hs]
    try ring
  · intro hf hs
    simp [updateUserBalanceAndPortfolio, Trade.GetTotalCost, User.UpdateBalance, hf, hs]
    try ring

/-- Witness for C4: a PENDING trade is a no-op on user and portfolio. -/
theorem nonfilled_trade_no_effect_witness :
    updateUserBalanceAndPortfolio
      (NewTrade 1 "AAPL" OrderSide.buy TradeType.market 10 100 "multi_strategy")
      ⟨1, 10000⟩ [⟨1, "MSFT", 3, 50, 150, 0⟩]
      = (⟨1, 10000⟩, [⟨1, "MSFT", 3, 50, 150, 0⟩]) :=
  (nonfilled_trade_no_effect
      (NewTrade 1 "AAPL" OrderSide.buy TradeType.market 10 100 "multi_strategy")
      ⟨1, 10000⟩ [⟨1, "MSFT", 3, 50, 150, 0⟩]).1 (Or.inl rfl)

/-- Counterexample to C5 as stated: an opposing fill of 15 against a long
position of 10 flips the quantity's sign from +1 to −1 (`UpdatePosition`
adds signed quantities with no magnitude cap). -/
theorem opposing_fill_flips_sign_cex :
    (((⟨1, "AAPL", 10, 100, 0, 0⟩ : Portfolio).UpdatePosition (-15) 50).Quantity = -5) ∧
    signD (((⟨1, "AAPL", 10, 100, 0, 0⟩ : Portfolio).UpdatePosition (-15) 50).Quantity)
      ≠ signD ((⟨1, "AAPL", 10, 100, 0, 0⟩ : Portfolio).Quantity) := by
  norm_num [Portfolio.UpdatePosition, signD]

/-- C5 amended: when the opposing fill's magnitude is at most the position's
magnitude, `UpdatePosition` only shrinks the magnitude and the sign is
preserved unless the position closes to exactly zero. -/
theorem opposing_fill_reduces (p : Portfolio) (quantity price : ℚ)
    (hq : p.Quantity ≠ 0) (hs : signD quantity ≠ signD p.Quantity)
    (hm : |quantity| ≤ |p.Quantity|) :
    |(p.UpdatePosition quantity price).Quantity| ≤ |p.Quantity| ∧
    (signD (p.UpdatePosition quantity price).Quantity = signD p.Quantity ∨
      (p.UpdatePosition quantity price).Quantity = 0) := by
  have hQ : (p.UpdatePosition quantity price).Quantity = p.Quantity + quantity := by
    unfold Portfolio.UpdatePosition
    rw [if_neg hq, if_neg hs]
    dsimp only
    split_ifs <;> rfl
  rw [hQ]
  rcases lt_or_gt_of_ne hq with hneg | hpos
  · have hqpos : 0 ≤ quantity := by
      by_contra hc
      push_neg at hc
      exact hs (by simp [signD, hc, asymm hc, hneg, asymm hneg])
    have habs : |p.Quantity| = -p.Quantity := abs_of_neg hneg
    rw [habs] at hm ⊢
    have h1 : quantity ≤ -p.Quantity := le_trans (le_abs_self quantity) hm
    constructor
    · rw [abs_le]
      constructor <;> linarith
    · rcases eq_or_lt_of_le (show p.Quantity + quantity ≤ 0 by linarith) with he | hl
      · exact Or.inr he
      · exact Or.inl (by simp [signD, hl, asymm hl, hneg, asymm hneg])
  · have hqneg : quantity ≤ 0 := by
      by_contra hc
      push_neg at hc
      exact hs (by simp [signD, hc, hpos])
    have habs : |p.Quantity| = p.Quantity := abs_of_pos hpos
    rw [habs] at hm ⊢
    have h1 : -quantity ≤ p.Quantity := le_trans (neg_le_abs quantity) hm
    constructor
    · rw [abs_le]
      constructor <;> linarith
    · rcases eq_or_lt_of_le (show 0 ≤ p.Quantity + quantity by linarith) with he | hl
      · exact Or.inr he.symm
      · exact Or.inl (by simp [signD, hl, hpos])

/-- Witness for C5's amended statement at a concrete partial close. -/
theorem opposing_fill_reduces_witness :
    |((⟨1, "AAPL", 10, 100, 0, 0⟩ : Portfolio).UpdatePosition (-4) 50).Quantity|
        ≤ |(⟨1, "AAPL", 10, 100, 0, 0⟩ : Portfolio).Quantity| ∧
    (signD ((⟨1, "AAPL", 10, 100, 0, 0⟩ : Portfolio).UpdatePosition (-4) 50).Quantity
        = signD (⟨1, "AAPL", 10, 100, 0, 0⟩ : Portfolio).Quantity ∨
      ((⟨1, "AAPL", 10, 100, 0, 0⟩ : Portfolio).UpdatePosition (-4) 50).Quantity = 0) :=
  opposing_fill_reduces ⟨1, "AAPL", 10, 100, 0, 0⟩ (-4) 50
    (by norm_num) (by norm_num [signD]) (by norm_num)

/-- The Position invariant of the spec: zero quantity forces zero average
price. -/
def PositionInvariant (p : Portfolio) : Prop :=
  p.Quantity = 0 → p.AveragePrice = 0

/-- Counterexample to C6 as stated: a zero-quantity fill at price 50 on an
empty position leaves the quantity at 0 but sets the average price to 50. -/
theorem position_invariant_cex :
    (((⟨1, "AAPL", 0, 0, 0, 0⟩ : Portfolio).UpdatePosition 0 50).Quantity = 0) ∧
    (((⟨1, "AAPL", 0, 0, 0, 0⟩ : Portfolio).UpdatePosition 0 50).AveragePrice ≠ 0) := by
  norm_num [Portfolio.UpdatePosition]

/-- C6 amended: `UpdatePosition` establishes the invariant for every
nonzero fill quantity, and `CalculateUnrealizedPL` preserves it for every
current price. -/
theorem ledger_ops_preserve_invariant (p : Portfolio) :
    (∀ quantity price : ℚ, quantity ≠ 0 →
      PositionInvariant (p.UpdatePosition quantity price)) ∧
    (∀ currentPrice : ℚ, PositionInvariant p →
      PositionInvariant (p.CalculateUnrealizedPL currentPrice)) := by
  constructor
  · intro quantity price hq
    unfold Portfolio.UpdatePosition PositionInvariant
    dsimp only
    split_ifs with h0 hsgn hz1 hz2
    · intro h
      exact absurd h hq
    · intro _
      exact absurd hz1 (add_ne_zero_of_signD_eq h0 hsgn)
    · intro h
      exact absurd h hz1
    · intro _
      rfl
    · intro h
      exact absurd h hz2
  · intro currentPrice hinv
    unfold Portfolio.CalculateUnrealizedPL PositionInvariant
    dsimp only
    split_ifs with h0
    · intro _
      exact hinv h0
    · intro h
      exact absurd h h0

/-- Witness for C6's amended statement: a nonzero fill on an empty position
and a P&L recomputation both satisfy the invariant. -/
theorem ledger_ops_preserve_invariant_witness :
    PositionInvariant ((⟨1, "AAPL", 0, 0, 0, 0⟩ : Portfolio).UpdatePosition 10 100) ∧
    PositionInvariant ((⟨1, "AAPL", 0, 0, 0, 0⟩ : Portfolio).CalculateUnrealizedPL 100) :=
  ⟨(ledger_ops_preserve_invariant ⟨1, "AAPL", 0, 0, 0, 0⟩).1 10 100 (by norm_num),
   (ledger_ops_preserve_invariant ⟨1, "AAPL", 0, 0, 0, 0⟩).2 100 (fun _ => rfl)⟩

/-- C10: on a zero-quantity position `CalculateUnrealizedPL` only zeroes
the unrealized P&L and leaves every other field (including CurrentValue and
AveragePrice) unchanged; the CurrentValue is written only on a nonzero
quantity. -/
theorem unrealized_pl_zero_frame (p : Portfolio) (currentPrice : ℚ) :
    (p.Quantity = 0 →
      p.CalculateUnrealizedPL currentPrice = { p with UnrealizedPL := 0 }) ∧
    (p.Quantity ≠ 0 →
      (p.CalculateUnrealizedPL currentPrice).CurrentValue = p.Quantity * currentPrice ∧
      (p.CalculateUnrealizedPL currentPrice).UnrealizedPL
        = p.Quantity * currentPrice - p.Quantity * p.AveragePrice ∧
      (p.CalculateUnrealizedPL currentPrice).Quantity = p.Quantity ∧
      (p.CalculateUnrealizedPL currentPrice).AveragePrice = p.AveragePrice ∧
      (p.CalculateUnrealizedPL currentPrice).UserID = p.UserID ∧
      (p.CalculateUnrealizedPL currentPrice).Symbol = p.Symbol) := by
  unfold Portfolio.CalculateUnrealizedPL
  constructor
  · intro h
    rw [if_pos h]
  · intro h
    rw [if_neg h]
    exact ⟨rfl, rfl, rfl, rfl, rfl, rfl⟩

/-- Witness for C10 on an empty position at price 250. -/
theorem unrealized_pl_zero_frame_witness :
    (⟨1, "AAPL", 0, 7, 3, 9⟩ : Portfolio).CalculateUnrealizedPL 250
      = ⟨1, "AAPL", 0, 7, 3, 0⟩ :=
  (unrealized_pl_zero_frame ⟨1, "AAPL", 0, 7, 3, 9⟩ 250).1 rfl

/-- `getD` of a mapped range evaluates the mapped function. -/
theorem getD_range_map (f : ℕ → ℚ) {n i : ℕ} (hi : i < n) :
    ((List.range n).map f).getD i 0 = f i := by
  rw [List.getD_eq_getElem?_getD, List.getElem?_map, List.getElem?_range hi]
  rfl

/-- Bars used to refute C7's strength formula: closes 10, 10, 11. -/
def smaCexBars : List MockBar :=
  [⟨0, 0, 0, 10, 0⟩, ⟨0, 0, 0, 10, 0⟩, ⟨0, 0, 0, 11, 0⟩]

/-- Counterexample to C7's strength formula: on closes 10, 10, 11 with
periods 1 and 2 a bullish cross fires and the emitted strength is 1 (the
code computes `0.7 + gap·100·3`, here clamped at 1), while the claim's
`0.7 + 3·gap` clamped at 1 equals `59/70 ≠ 1` for the same relative gap
`1/21`. -/
theorem sma_strength_cex :
    SMAStrategy.Analyze ⟨1, 2⟩ "AAPL" smaCexBars 11 =
      some ⟨"AAPL", "BUY", 1, 11, "SMA Crossover"⟩ ∧
    min (7/10 + 3 * |(currentShortSMA ⟨1, 2⟩ smaCexBars - currentLongSMA ⟨1, 2⟩ smaCexBars)
        / currentLongSMA ⟨1, 2⟩ smaCexBars|) 1 ≠ 1 := by
  have hshort : shortSMA ⟨1, 2⟩ smaCexBars = [10, 10, 11] := by
    unfold shortSMA CalculateSMA
    norm_num [smaCexBars, ExtractPrices]
    rw [show List.range 3 = [0, 1, 2] from rfl]
    simp [windowSum]
  have hlong : longSMA ⟨1, 2⟩ smaCexBars = [10, 21/2] := by
    unfold longSMA CalculateSMA
    norm_num [smaCexBars, ExtractPrices]
    rw [show List.range 2 = [0, 1] from rfl]
    simp [windowSum]
    norm_num
  have hcs : currentShortSMA ⟨1, 2⟩ smaCexBars = 11 := by
    unfold currentShortSMA
    rw [hshort]
    rfl
  have hcl : currentLongSMA ⟨1, 2⟩ smaCexBars = 21/2 := by
    unfold currentLongSMA
    rw [hlong]
    rfl
  have hps : prevShortSMA ⟨1, 2⟩ smaCexBars = 10 := by
    unfold prevShortSMA
    rw [hshort]
    rfl
  have hpl : prevLongSMA ⟨1, 2⟩ smaCexBars = 10 := by
    unfold prevLongSMA
    rw [hlong]
    rfl
  constructor
  · unfold SMAStrategy.Analyze
    rw [if_neg (by norm_num [smaCexBars]), if_neg (by rw [hshort, hlong]; norm_num),
      if_pos (by rw [hcs, hcl, hps, hpl]; norm_num)]
    rw [hcs, hcl]
    have habs : |((11 : ℚ) - 21/2) / (21/2)| = 1/21 := by
      rw [abs_of_nonneg (by norm_num)]
      norm_num
    rw [habs]
    norm_num [min_def]
  · rw [hcs, hcl]
    have habs : |((11 : ℚ) - 21/2) / (21/2)| = 1/21 := by
      rw [abs_of_nonneg (by norm_num)]
      norm_num
    rw [habs]
    norm_num [min_def]

/-- C7 amended: the strategy signals BUY exactly on the bullish cross and
SELL exactly on the bearish cross, and the emitted strength is
`0.7 + 300·|relative gap|` (3 per percentage point of gap), clamped to
1.0. -/
theorem sma_crossover_signal (s : SMAStrategy) (symbol : String)
    (bars : List MockBar) (currentPrice : ℚ) :
    (bullishCross s bars →
      s.Analyze symbol bars currentPrice = some ⟨symbol, "BUY",
        min (7/10 + |(currentShortSMA s bars - currentLongSMA s bars)
          / currentLongSMA s bars| * 100 * 3) 1,
        currentPrice, "SMA Crossover"⟩) ∧
    (¬bullishCross s bars → bearishCross s bars →
      s.Analyze symbol bars currentPrice = some ⟨symbol, "SELL",
        min (7/10 + |(currentLongSMA s bars - currentShortSMA s bars)
          / currentLongSMA s bars| * 100 * 3) 1,
        currentPrice, "SMA Crossover"⟩) ∧
    (¬bullishCross s bars → ¬bearishCross s bars →
      s.Analyze symbol bars currentPrice = none) := by
  unfold SMAStrategy.Analyze bullishCross bearishCross
  refine ⟨?_, ?_, ?_⟩
  · rintro ⟨h1, h2, h3, h4, h5⟩
    rw [if_neg (not_lt.mpr h1),
      if_neg (by push_neg; exact ⟨h2, h3⟩),
      if_pos ⟨h4, h5⟩]
  · intro hb
    rintro ⟨h1, h2, h3, h4, h5⟩
    rw [if_neg (not_lt.mpr h1),
      if_neg (by push_neg; exact ⟨h2, h3⟩),
      if_neg (fun hc => hb ⟨h1, h2, h3, hc.1, hc.2⟩),
      if_pos ⟨h4, h5⟩]
  · intro hb hb'
    by_cases h1 : bars.length < s.longPeriod
    · rw [if_pos h1]
    by_cases h2 : (shortSMA s bars).length < 2 ∨ (longSMA s bars).length < 2
    · rw [if_neg h1, if_pos h2]
    push_neg at h1 h2
    rw [if_neg (not_lt.mpr h1), if_neg (by push_neg; exact h2),
      if_neg (fun hc => hb ⟨h1, h2.1, h2.2, hc.1, hc.2⟩),
      if_neg (fun hc => hb' ⟨h1, h2.1, h2.2, hc.1, hc.2⟩)]

/-- Witness for C7's amended statement on the concrete bullish cross. -/
theorem sma_crossover_signal_witness :
    SMAStrategy.Analyze ⟨1, 2⟩ "AAPL" smaCexBars 11 = some ⟨"AAPL", "BUY",
      min (7/10 + |(currentShortSMA ⟨1, 2⟩ smaCexBars - currentLongSMA ⟨1, 2⟩ smaCexBars)
        / currentLongSMA ⟨1, 2⟩ smaCexBars| * 100 * 3) 1,
      11, "SMA Crossover"⟩ :=
  (sma_crossover_signal ⟨1, 2⟩ "AAPL" smaCexBars 11).1
    (by
      refine ⟨by norm_num [smaCexBars], ?_, ?_, ?_, ?_⟩ <;>
        simp [shortSMA, longSMA, currentShortSMA, currentLongSMA,
          prevShortSMA, prevLongSMA, CalculateSMA, ExtractPrices,
          smaCexBars, windowSum, List.range_succ] <;>
        norm_num)

/-- Whenever the smoothed average loss is zero at an index, the RSI loop
emits 100 at that index. -/
theorem rsiAux_getD_100 (period : ℕ) :
    ∀ (gls : List (ℚ × ℚ)) (avgGain avgLoss : ℚ) (i : ℕ),
      i < (rsiAux period avgGain avgLoss gls).length →
      (rsiLossAux period avgLoss gls).getD i 1 = 0 →
      (rsiAux period avgGain avgLoss gls).getD i 0 = 100 := by
  intro gls
  induction gls with
  | nil =>
    intro avgGain avgLoss i hi h
    simp [rsiAux] at hi
  | cons gl rest ih =>
    intro avgGain avgLoss i hi h
    cases i with
    | zero =>
      simp only [rsiLossAux, List.getD_cons_zero] at h
      simp only [rsiAux, List.getD_cons_zero]
      rw [rsiValue, if_pos h]
    | succ n =>
      simp only [rsiLossAux, List.getD_cons_succ] at h
      simp only [rsiAux, List.length_cons, Nat.succ_lt_succ_iff] at hi
      simp only [rsiAux, List.getD_cons_succ]
      exact ih _ _ n hi h

/-- On a strictly increasing price list every per-step loss is zero. -/
theorem gainsLosses_snd_zero :
    ∀ (prices : List ℚ), List.Chain' (· < ·) prices →
      ∀ gl ∈ gainsLosses prices, gl.2 = 0 := by
  intro prices
  induction prices with
  | nil => intro _ gl hgl; simp [gainsLosses] at hgl
  | cons a tail ih =>
    intro hc gl hgl
    cases tail with
    | nil => simp [gainsLosses] at hgl
    | cons b rest =>
      rw [List.chain'_cons] at hc
      unfold gainsLosses at hgl
      rcases List.mem_cons.mp hgl with he | hm
      · rw [he, if_pos hc.1]
      · exact ih hc.2 gl hm

/-- The RSI loop emits 100 everywhere once the average loss is zero and all
remaining losses are zero. -/
theorem rsiAux_all_100 (period : ℕ) :
    ∀ (gls : List (ℚ × ℚ)) (avgGain : ℚ),
      (∀ gl ∈ gls, gl.2 = 0) →
      ∀ v ∈ rsiAux period avgGain 0 gls, v = 100 := by
  intro gls
  induction gls with
  | nil => intro avgGain _ v hv; simp [rsiAux] at hv
  | cons gl rest ih =>
    intro avgGain hz v hv
    have h2 : gl.2 = 0 := hz gl (List.mem_cons_self gl rest)
    have hal : wilderStep period 0 gl.2 = 0 := by
      rw [h2, wilderStep]
      simp
    unfold rsiAux at hv
    rw [hal] at hv
    rcases List.mem_cons.mp hv with he | hm
    · rw [he, rsiValue, if_pos rfl]
    · exact ih _ (fun g hg => hz g (List.mem_cons_of_mem gl hg)) v hm

/-- C8: for a series of at least `period+1` prices, any index whose computed
average loss is zero gets RSI exactly 100 (the division is guarded by that
very test), and on a strictly increasing series every RSI value is 100. -/
theorem rsi_avg_loss_zero (prices : List ℚ) (period : ℕ)
    (hp : 1 ≤ period) (hlen : period + 1 ≤ prices.length) :
    (∀ i, i < (CalculateRSI prices period).length →
      (rsiAvgLosses prices period).getD i 1 = 0 →
      (CalculateRSI prices period).getD i 0 = 100) ∧
    (List.Chain' (· < ·) prices →
      ∀ v ∈ CalculateRSI prices period, v = 100) := by
  have hnot : ¬ prices.length < period + 1 := not_lt.mpr hlen
  constructor
  · intro i hi hz
    unfold CalculateRSI at hi ⊢
    unfold rsiAvgLosses at hz
    rw [if_neg hnot] at hi ⊢
    rw [if_neg hnot] at hz
    cases i with
    | zero =>
      simp only [List.getD_cons_zero] at hz ⊢
      rw [rsiValue, if_pos hz]
    | succ n =>
      simp only [List.getD_cons_succ] at hz ⊢
      simp only [List.length_cons, Nat.succ_lt_succ_iff] at hi
      exact rsiAux_getD_100 period _ _ _ n hi hz
  · intro hchain v hv
    have hall : ∀ gl ∈ gainsLosses prices, gl.2 = 0 :=
      gainsLosses_snd_zero prices hchain
    have hsum : (((gainsLosses prices).take period).map Prod.snd).sum = 0 := by
      apply List.sum_eq_zero
      intro x hx
      rcases List.mem_map.mp hx with ⟨gl, hgl, he⟩
      rw [← he]
      exact hall gl (List.mem_of_mem_take hgl)
    unfold CalculateRSI at hv
    rw [if_neg hnot] at hv
    dsimp only at hv
    rw [hsum, zero_div] at hv
    rcases List.mem_cons.mp hv with he | hm
    · rw [he, rsiValue, if_pos rfl]
    · exact rsiAux_all_100 period _ _
        (fun g hg => hall g (List.mem_of_mem_drop hg)) v hm

/-- Witness for C8 on the strictly increasing series 1, 2, 3 with
period 1: the first RSI value is 100 via the zero-average-loss rule. -/
theorem rsi_avg_loss_zero_witness :
    (CalculateRSI [1, 2, 3] 1).getD 0 0 = 100 :=
  (rsi_avg_loss_zero [1, 2, 3] 1 (by norm_num) (by norm_num)).1 0
    (by simp [CalculateRSI, gainsLosses, rsiAux, wilderStep])
    (by simp [rsiAvgLosses, gainsLosses]; try norm_num)

/-- Length of the SMA output on sufficient data. -/
theorem CalculateSMA_length (values : List ℚ) (period : ℕ)
    (h : period ≤ values.length) :
    (CalculateSMA values period).length = values.length - period + 1 := by
  unfold CalculateSMA
  rw [if_neg (not_lt.mpr h)]
  simp

/-- Counterexample to C9 as stated: with multiplier `k = -1` on the series
1, 3 (window population variance 1, standard deviation 1, reached by a
square root faithful at 1) the lower band is 3 and the middle band is 2, so
`lower ≤ middle` fails — the band ordering does not hold for every
multiplier. -/
theorem bollinger_neg_k_cex :
    (CalculateBollingerBands (fun x => x) [1, 3] 2 (-1)).2.1.getD 0 0 = 2 ∧
    (CalculateBollingerBands (fun x => x) [1, 3] 2 (-1)).2.2.getD 0 0 = 3 ∧
    windowVariance [1, 3] 2 0 2 = 1 ∧
    ¬((CalculateBollingerBands (fun x => x) [1, 3] 2 (-1)).2.2.getD 0 0
        ≤ (CalculateBollingerBands (fun x => x) [1, 3] 2 (-1)).2.1.getD 0 0) := by
  have hsma : CalculateSMA [1, 3] 2 = [2] := by
    unfold CalculateSMA
    norm_num
    rw [show List.range 1 = [0] from rfl]
    simp [windowSum]
    norm_num
  have hvar : windowVariance [1, 3] 2 0 2 = 1 := by
    simp [windowVariance]
    norm_num
  unfold CalculateBollingerBands
  rw [if_neg (by norm_num)]
  dsimp only
  rw [hsma]
  rw [show List.range ([(2 : ℚ)].length) = [0] from rfl]
  simp only [List.map_cons, List.map_nil, List.getD_cons_zero]
  rw [hvar]
  norm_num

/-- C9 amended: for a series of at least `period` prices and a nonnegative
multiplier `k`, with `sqrtD` (the decimal square root the code reaches via
`variance.Pow(0.5)`) returning the exact nonnegative root of each window's
population variance, the bands satisfy `upper − lower = 2·k·stddev`,
`lower ≤ middle ≤ upper`, and the middle band is the SMA of each window. -/
theorem bollinger_bands_props (sqrtD : ℚ → ℚ) (prices : List ℚ) (period : ℕ)
    (k : ℚ) (hlen : period ≤ prices.length) (hk : 0 ≤ k)
    (hroot : ∀ i, i < (CalculateSMA prices period).length →
      0 ≤ sqrtD (windowVariance prices period i ((CalculateSMA prices period).getD i 0)) ∧
      sqrtD (windowVariance prices period i ((CalculateSMA prices period).getD i 0)) *
          sqrtD (windowVariance prices period i ((CalculateSMA prices period).getD i 0))
        = windowVariance prices period i ((CalculateSMA prices period).getD i 0)) :
    (CalculateBollingerBands sqrtD prices period k).2.1 = CalculateSMA prices period ∧
    (CalculateBollingerBands sqrtD prices period k).1.length
      = (CalculateSMA prices period).length ∧
    (CalculateBollingerBands sqrtD prices period k).2.2.length
      = (CalculateSMA prices period).length ∧
    ∀ i, i < (CalculateSMA prices period).length →
      ((CalculateBollingerBands sqrtD prices period k).1.getD i 0
          - (CalculateBollingerBands sqrtD prices period k).2.2.getD i 0
        = 2 * k * sqrtD (windowVariance prices period i
            ((CalculateSMA prices period).getD i 0))) ∧
      ((CalculateBollingerBands sqrtD prices period k).2.2.getD i 0
        ≤ (CalculateBollingerBands sqrtD prices period k).2.1.getD i 0) ∧
      ((CalculateBollingerBands sqrtD prices period k).2.1.getD i 0
        ≤ (CalculateBollingerBands sqrtD prices period k).1.getD i 0) ∧
      ((CalculateBollingerBands sqrtD prices period k).2.1.getD i 0
        = windowSum prices i period / (period : ℚ)) := by
  have hnot : ¬ prices.length < period := not_lt.mpr hlen
  unfold CalculateBollingerBands
  rw [if_neg hnot]
  dsimp only
  refine ⟨rfl, by simp, by simp, ?_⟩
  intro i hi
  have hu : ((List.range (CalculateSMA prices period).length).map
      (fun i => (CalculateSMA prices period).getD i 0
        + k * sqrtD (windowVariance prices period i
            ((CalculateSMA prices period).getD i 0)))).getD i 0
      = (CalculateSMA prices period).getD i 0
        + k * sqrtD (windowVariance prices period i
            ((CalculateSMA prices period).getD i 0)) :=
    getD_range_map _ hi
  have hl : ((List.range (CalculateSMA prices period).length).map
      (fun i => (CalculateSMA prices period).getD i 0
        - k * sqrtD (windowVariance prices period i
            ((CalculateSMA prices period).getD i 0)))).getD i 0
      = (CalculateSMA prices period).getD i 0
        - k * sqrtD (windowVariance prices period i
            ((CalculateSMA prices period).getD i 0)) :=
    getD_range_map _ hi
  have hks : 0 ≤ k * sqrtD (windowVariance prices period i
      ((CalculateSMA prices period).getD i 0)) :=
    mul_nonneg hk (hroot i hi).1
  have hmid : (CalculateSMA prices period).getD i 0
      = windowSum prices i period / (period : ℚ) := by
    have hi' : i < prices.length - period + 1 := by
      rw [CalculateSMA_length prices period hlen] at hi
      exact hi
    conv_lhs => rw [CalculateSMA, if_neg hnot]
    exact getD_range_map (fun j => windowSum prices j period / (period : ℚ)) hi'
  refine ⟨?_, ?_, ?_, hmid⟩
  · rw [hu, hl]
    ring
  · rw [hl]
    linarith
  · rw [hu]
    linarith

/-- Witness for C9's amended statement on the series 0, 2 with period 2 and
multiplier 2 (window variance 1, square root 1). -/
theorem bollinger_bands_props_witness :
    ((CalculateBollingerBands (fun x => x) [0, 2] 2 2).1.getD 0 0
        - (CalculateBollingerBands (fun x => x) [0, 2] 2 2).2.2.getD 0 0
      = 2 * 2 * windowVariance [0, 2] 2 0 ((CalculateSMA [0, 2] 2).getD 0 0)) ∧
    ((CalculateBollingerBands (fun x => x) [0, 2] 2 2).2.2.getD 0 0
      ≤ (CalculateBollingerBands (fun x => x) [0, 2] 2 2).2.1.getD 0 0) ∧
    ((CalculateBollingerBands (fun x => x) [0, 2] 2 2).2.1.getD 0 0
      ≤ (CalculateBollingerBands (fun x => x) [0, 2] 2 2).1.getD 0 0) ∧
    ((CalculateBollingerBands (fun x => x) [0, 2] 2 2).2.1.getD 0 0
      = windowSum [0, 2] 0 2 / ((2 : ℕ) : ℚ)) := by
  have hsma : CalculateSMA [0, 2] 2 = [1] := by
    unfold CalculateSMA
    norm_num
    rw [show List.range 1 = [0] from rfl]
    simp [windowSum]
    try norm_num
  have hvar : windowVariance [0, 2] 2 0 ((CalculateSMA [0, 2] 2).getD 0 0) = 1 := by
    rw [hsma]
    simp [windowVariance]
    try norm_num
  have h := (bollinger_bands_props (fun x => x) [0, 2] 2 2 (by norm_num) (by norm_num)
    (by
      intro i hi
      rw [hsma] at hi
      have h0 : i = 0 := Nat.lt_one_iff.mp (by simpa using hi)
      subst h0
      rw [hvar]
      norm_num)).2.2.2 0 (by rw [hsma]; norm_num)
  exact h

end MockTrade
